import Mathlib

/-!
Verification of the dev-mode orchestration engine in pkg/start/gen2.go.

The Go code is shallowly embedded: pure helpers (path cleaning, env
substitution, log-line parsing) are translated to executable Lean
functions over lists of characters; effectful steps (provider calls,
docker inspect, filesystem stat/open, the upload pipe) are modelled by
explicit oracle parameters giving the outcome of each external call, and
each function returns its value/error outcome.  Machine-word overflow is
irrelevant here (the code manipulates strings and small counters), so
Nat/Int are used directly.

Library functions from the Go standard library that the code relies on
(strings.HasPrefix, strings.Fields, strings.Replace, strings.TrimSpace,
path/filepath Clean/Rel/Join/IsAbs on Unix, the regexp matches of the
two fixed patterns, url.Parse's scheme extraction) are modelled
faithfully below; each model notes the Go contract it implements.
Strings are modelled at the rune level (List Char); for valid UTF-8 the
byte-level prefix/containment tests used by the Go code agree with the
rune-level ones because UTF-8 decoding is prefix-deterministic.
-/

/-! ### Character and string helpers (models of Go `strings` functions) -/

/-- Model of Go byte classification `b < ' ' || b == 0x7f` used by
`net/url` to reject control characters. -/
def isCtlCh (c : Char) : Bool := c < ' ' || c = '\x7f'

/-- Digit test, the `\d` character class of Go regexp. -/
def isDigitCh (c : Char) : Bool := '0' ≤ c && c ≤ '9'

/-- ASCII whitespace recognized by `strings.Fields` (the Unicode spaces
also recognized by Go never occur in the inputs considered here). -/
def isSpaceCh (c : Char) : Bool :=
  c = ' ' || c = '\t' || c = '\n' || c = '\r' || c = '\x0b' || c = '\x0c'

/-- Model of Go `strings.HasPrefix s pre`. -/
def strStartsWith (s pre : String) : Bool := pre.data.isPrefixOf s.data

/-- Accumulator worker for `goFields`. -/
def fieldsAux : List Char → List Char → List String
  | acc, [] => if acc = [] then [] else [String.mk acc.reverse]
  | acc, c :: cs =>
    if isSpaceCh c then
      if acc = [] then fieldsAux [] cs
      else String.mk acc.reverse :: fieldsAux [] cs
    else fieldsAux (c :: acc) cs

/-- Model of Go `strings.Fields`: split around runs of whitespace. -/
def goFields (s : String) : List String := fieldsAux [] s.data

/-- Model of Go `strings.TrimSpace` (ASCII whitespace). -/
def goTrimSpace (s : String) : String :=
  String.mk (((s.data.dropWhile isSpaceCh).reverse.dropWhile isSpaceCh).reverse)

/-- Model of Go `strings.ToUpper` (the instruction keywords compared
against are ASCII, where Char.toUpper agrees with Go). -/
def goToUpper (s : String) : String := String.mk (s.data.map Char.toUpper)

/-- Fuel-driven worker for `goReplaceAll`; the fuel is the length of the
subject string, and every step consumes at least one character. -/
def replaceAllFuel (old new : List Char) : Nat → List Char → List Char
  | 0, s => s
  | _ + 1, [] => []
  | fuel + 1, c :: cs =>
    if old.isPrefixOf (c :: cs) then
      new ++ replaceAllFuel old new fuel ((c :: cs).drop old.length)
    else c :: replaceAllFuel old new fuel cs

/-- Model of Go `strings.Replace(s, old, new, -1)`: replace every
non-overlapping leftmost occurrence; an empty `old` inserts `new` at
every rune boundary. -/
def goReplaceAll (s old new : String) : String :=
  if old.data = [] then
    String.mk (new.data ++ s.data.foldr (fun c acc => c :: (new.data ++ acc)) [])
  else String.mk (replaceAllFuel old.data new.data s.data.length s.data)

/-- Chars of the segment before the first occurrence of `stop`, together
with the remainder after it; `none` when `stop` does not occur. -/
def takeUntilCh (stop : Char) : List Char → Option (List Char × List Char)
  | [] => none
  | c :: cs =>
    if c = stop then some ([], cs)
    else (takeUntilCh stop cs).map (fun p => (c :: p.1, p.2))

/-- Segment before the first `-`, as in `strings.Split(s, "-")[0]`. -/
def takeUntilMinus : List Char → List Char
  | [] => []
  | c :: cs => if c = '-' then [] else c :: takeUntilMinus cs

/-! ### Unix path model (Go `path/filepath` Clean/Rel/Join/IsAbs)

`filepath.Clean` is lexical: it removes empty and `.` elements, resolves
inner `..` against preceding elements and drops `..` at an absolute
root.  `filepath.Rel` cleans both paths, requires them to be both
absolute or both relative, strips the common leading elements, refuses
when the first remaining base element is `..`, and otherwise ascends
with `..` for each remaining base element before descending into the
remaining target elements.  There are no Windows volumes here. -/

/-- Split a character list on `/`. -/
def splitSlashAux : List Char → List Char → List (List Char)
  | acc, [] => [acc.reverse]
  | acc, c :: cs =>
    if c = '/' then acc.reverse :: splitSlashAux [] cs
    else splitSlashAux (c :: acc) cs

/-- Components of a path string, split on `/`. -/
def splitSlash (cs : List Char) : List (List Char) := splitSlashAux [] cs

/-- Join components with `/`. -/
def joinSlash : List (List Char) → List Char
  | [] => []
  | [c] => c
  | c :: rest => c ++ '/' :: joinSlash rest

/-- Clean worker: process components left to right keeping the (reversed)
retained components; `rooted` marks an absolute path, where leading `..`
elements are dropped. -/
def cleanRev (rooted : Bool) : List (List Char) → List (List Char) → List (List Char)
  | acc, [] => acc
  | acc, c :: rest =>
    if c = [] || c = ['.'] then cleanRev rooted acc rest
    else if c = ['.', '.'] then
      match acc with
      | [] => if rooted then cleanRev rooted [] rest else cleanRev rooted [['.', '.']] rest
      | a :: as =>
        if a = ['.', '.'] then cleanRev rooted (c :: a :: as) rest
        else cleanRev rooted as rest
    else cleanRev rooted (c :: acc) rest

/-- Model of Go `filepath.Clean` on Unix. -/
def goClean (p : String) : String :=
  match p.data with
  | [] => "."
  | c :: cs =>
    let rooted := c = '/'
    let comps := (cleanRev rooted [] (splitSlash (c :: cs))).reverse
    if rooted then String.mk ('/' :: joinSlash comps)
    else if comps = [] then "." else String.mk (joinSlash comps)

/-- Model of Go `filepath.IsAbs` on Unix. -/
def goIsAbs (p : String) : Bool := strStartsWith p "/"

/-- Drop one leading slash. -/
def stripLeadSlashData : List Char → List Char
  | '/' :: rest => rest
  | cs => cs

/-- Rel tail once the common leading components are stripped: refuse if
the first remaining base element is `..`, otherwise ascend then descend. -/
def mkRel (bs ts : List (List Char)) : Option String :=
  match bs with
  | [] => some (String.mk (joinSlash ts))
  | b :: rest =>
    if b = ['.', '.'] then none
    else some (String.mk (joinSlash (List.replicate (rest.length + 1) ['.', '.'] ++ ts)))

/-- Strip the common leading components of base and target. -/
def relComps : List (List Char) → List (List Char) → Option String
  | b :: bs, t :: ts => if b = t then relComps bs ts else mkRel (b :: bs) (t :: ts)
  | bs, ts => mkRel bs ts

/-- Model of Go `filepath.Rel(base, targ)` on Unix; `none` is the error
case ("can't make targ relative to base").  Note the asymmetry inherited
from Go: a cleaned base `.` contributes no elements while a cleaned
target `.` is the single element `.`. -/
def goRel (base targ : String) : Option String :=
  let b := goClean base
  let t := goClean targ
  if b = t then some "."
  else if goIsAbs b ≠ goIsAbs t then none
  else
    relComps
      (if b = "." || b = "/" then [] else splitSlash (stripLeadSlashData b.data))
      (if t = "/" then [] else splitSlash (stripLeadSlashData t.data))

/-- Model of Go `filepath.Join(a, b)`: join the non-empty parts with `/`
and clean, or return the empty string when both are empty. -/
def goJoin2 (a b : String) : String :=
  if a ≠ "" then goClean (a ++ "/" ++ b)
  else if b ≠ "" then goClean b
  else ""

/-! ### buildSource and the containment deduplication (gen2.go lines 53-56, 717-751)

`dedupSources` models the final loop of `buildSources`: entry `i` is
dropped when some *later* entry `j` has a Local that is a string prefix
of `i`'s Local and either the Remotes are equal or the Local-relative
and Remote-relative offsets agree; a `filepath.Rel` failure aborts the
whole resolution (`Except.error`). -/

structure buildSource where
  Local : String
  Remote : String
deriving DecidableEq, Repr

/-- Inner loop of the dedup scan: does any entry of the (later) list
contain `a`?  Mirrors gen2.go lines 720-744, including the order of the
`Remote` equality shortcut and the two `filepath.Rel` calls. -/
def checkContained (a : buildSource) : List buildSource → Except Unit Bool
  | [] => .ok false
  | b :: rest =>
    if strStartsWith a.Local b.Local then
      if a.Remote = b.Remote then .ok true
      else
        match goRel b.Local a.Local, goRel b.Remote a.Remote with
        | some rl, some rr =>
          if rl = rr then .ok true else checkContained a rest
        | _, _ => .error ()
    else checkContained a rest

/-- Outer loop of the dedup scan (gen2.go lines 717-749): keep each
entry not contained in a later one. -/
def dedupSources : List buildSource → Except Unit (List buildSource)
  | [] => .ok []
  | a :: rest =>
    match checkContained a rest with
    | .error e => .error e
    | .ok c =>
      match dedupSources rest with
      | .error e => .error e
      | .ok tail => if c then .ok tail else .ok (a :: tail)

/-! ### The build-instruction scan loop of buildSources (gen2.go lines 605-693)

State threaded across lines: the accumulated `buildSource` list, the
environment map and the working directory.  The environment map
`map[string]string` is modelled as an association list; Go map
assignment replaces the binding in place or appends a fresh one.  (Go
map iteration order is unspecified; the claims proved below never
depend on the iteration order of `replaceEnv`.)  The `docker inspect`
calls under `FROM` are external processes, modelled by an oracle from
image name to the outcome of the two invocations. -/

/-- Go map assignment `env[k] = v` on the association-list model. -/
def envSet (env : List (String × String)) (k v : String) : List (String × String) :=
  if env.any (fun kv => kv.1 == k) then
    env.map (fun kv => if kv.1 == k then (k, v) else kv)
  else env ++ [(k, v)]

/-- Go map lookup `env[k]` (as an Option): the first binding for `k`
(with `envSet` keys are unique, so this is the map's binding). -/
def envGet : List (String × String) → String → Option String
  | [], _ => none
  | kv :: rest, k =>
    match kv.1 == k with
    | true => some kv.2
    | false => envGet rest k

/-- Model of gen2.go's `replaceEnv` (lines 771-778): for each map entry,
textually replace first all occurrences of the braced reference and then
of the bare reference. -/
def replaceEnv (s : String) (env : List (String × String)) : String :=
  env.foldl
    (fun acc kv =>
      goReplaceAll (goReplaceAll acc ("$\x7b" ++ kv.1 ++ "\x7d") kv.2) ("$" ++ kv.1) kv.2)
    s

/-- Leftmost match of the `--([a-z]+)` pattern (`reDockerOption`,
gen2.go line 38): the captured lowercase run after the first `--` that
is followed by at least one lowercase letter. -/
def findOptAux : List Char → Option (List Char)
  | [] => none
  | '-' :: '-' :: rest =>
    let run := rest.takeWhile (fun c => 'a' ≤ c && c ≤ 'z')
    if run = [] then findOptAux ('-' :: rest) else some run
  | _ :: rest => findOptAux rest

/-- The capture group of `reDockerOption.FindStringSubmatch`. -/
def findOptionCapture (s : String) : Option String := (findOptAux s.data).map String.mk

/-- Outcome of the option-stripping loop over an ADD/COPY line. -/
inductive StripOut
  | skip                               -- a `--from` option: skip the whole line
  | fault                              -- Go slice-bounds panic (see below)
  | stripped (parts : List String)
deriving DecidableEq, Repr

/-- One left shift of the underlying array, as performed by
`parts = append(parts[:i], parts[i+1:]...)`: positions `i..curLen-2`
take the next element, all other positions keep their old value. -/
def listShiftLeft (l : List String) (i curLen : Nat) : List String :=
  (List.range l.length).map
    (fun k => if i ≤ k && k + 1 < curLen then l.getD (k + 1) "" else l.getD k "")

/-- The option-stripping loop of gen2.go lines 621-630.  Go's
`for i, p := range parts` iterates `i` over the *original* length while
reading from the underlying array that the removals mutate, so removed
positions shift later elements left and the element after a removed one
is skipped; a removal attempted at `i ≥ curLen` would slice past the
current length, which panics in Go and is modelled as `fault`. -/
def stripLoop : Nat → List String → Nat → Nat → StripOut
  | 0, arr, curLen, _ => .stripped (arr.take curLen)
  | fuel + 1, arr, curLen, i =>
    match findOptionCapture (arr.getD i "") with
    | some opt =>
      if opt = "from" then .skip
      else if i + 1 > curLen then .fault
      else stripLoop fuel (listShiftLeft arr i curLen) (curLen - 1) (i + 1)
    | none => stripLoop fuel arr curLen (i + 1)

/-- Strip `--option` tokens from an ADD/COPY line. -/
def stripOptions (parts : List String) : StripOut :=
  stripLoop parts.length parts parts.length 0

/-- Scheme scan of `url.Parse` (net/url `getScheme`): an error iff the
string starts with `:`; a scheme iff a leading `[A-Za-z][A-Za-z0-9+-.]*`
run is terminated by `:`; otherwise no scheme.  The accumulator holds
the scheme characters read so far, reversed. -/
def getSchemeAux : List Char → List Char → Except Unit (List Char)
  | _, [] => .ok []
  | acc, c :: cs =>
    if c = ':' then (if acc = [] then .error () else .ok acc.reverse)
    else if acc = [] then
      if ('a' ≤ c && c ≤ 'z') || ('A' ≤ c && c ≤ 'Z') then getSchemeAux [c] cs
      else .ok []
    else
      if ('a' ≤ c && c ≤ 'z') || ('A' ≤ c && c ≤ 'Z') || ('0' ≤ c && c ≤ '9')
          || c = '+' || c = '-' || c = '.' then getSchemeAux (c :: acc) cs
      else .ok []

/-- Model of `url.Parse(s)` restricted to what gen2.go consumes: the
(lowercased) scheme, with the error cases relevant to plain source
tokens (control bytes anywhere, or a leading `:`). -/
def urlParseScheme (s : String) : Except Unit String :=
  if s.data.any isCtlCh then .error ()
  else
    match getSchemeAux [] s.data with
    | .error e => .error e
    | .ok cs => .ok (String.mk (cs.map Char.toLower))

/-- Outcome of the two `docker inspect` invocations for one image
(gen2.go lines 664-686).  `envExec = none` models a failed first
invocation (the line is skipped); `some (.error ())` models output that
`json.Unmarshal` rejects (fatal); `some (.ok ee)` the parsed `K=V`
entries.  `wdExec` is the second invocation (failure is fatal), whose
output is trimmed into the working directory. -/
structure ImageInspect where
  envExec : Option (Except Unit (List String))
  wdExec : Except Unit String

/-- Running state of the scan loop (gen2.go lines 605-607). -/
structure BSState where
  bs : List buildSource
  env : List (String × String)
  wd : String
deriving DecidableEq, Repr

/-- `strings.SplitN(e, "=", 2)` produces two parts iff `=` occurs; the
merge loop of gen2.go lines 673-679 assigns `env[k] = v` for those. -/
def splitN2Eq (e : String) : Option (String × String) :=
  match takeUntilCh '=' e.data with
  | none => none
  | some (k, v) => some (String.mk k, String.mk v)

/-- Merge one `K=V` entry of the base image environment into the map:
an unconditional Go map assignment (entries without `=` are dropped). -/
def envMergeEntry (env : List (String × String)) (e : String) : List (String × String) :=
  match splitN2Eq e with
  | some (k, v) => envSet env k v
  | none => env

/-- The `FROM` branch (gen2.go lines 660-687): inspect the image's
environment (exec failure skips the line, bad JSON is fatal), merge each
`K=V` entry by plain map assignment, then inspect the configured
working directory (failure fatal) and trim it into `wd`. -/
def processFrom (inspect : String → ImageInspect) (st : BSState) (img : String) :
    Except Unit BSState :=
  match (inspect img).envExec with
  | none => .ok st
  | some (.error _) => .error ()
  | some (.ok ee) =>
    let env2 := ee.foldl envMergeEntry st.env
    match (inspect img).wdExec with
    | .error _ => .error ()
    | .ok out => .ok { st with env := env2, wd := goTrimSpace out }

/-- The `ADD`/`COPY` branch (gen2.go lines 620-655): strip options
(`--from` skips the line), then with at least source and destination
tokens, parse the source as a URL (parse failure is fatal), skip
`--from`-prefixed sources and http(s) URLs, and otherwise append a
buildSource whose Local joins the service build path with the source and
whose Remote is the env-expanded destination, joined under the working
directory when relative. -/
def processAddCopy (buildPath : String) (st : BSState) (parts : List String) :
    Except Unit BSState :=
  match stripOptions parts with
  | .skip => .ok st
  | .fault => .error ()
  | .stripped parts2 =>
    match parts2 with
    | _ :: src :: dst :: _ =>
      match urlParseScheme src with
      | .error _ => .error ()
      | .ok scheme =>
        if strStartsWith src "--from" then .ok st
        else if scheme = "http" || scheme = "https" then .ok st
        else
          let lcl := goJoin2 buildPath src
          let rmt0 := replaceEnv dst st.env
          let rmt := if st.wd ≠ "" && !goIsAbs rmt0 then goJoin2 st.wd rmt0 else rmt0
          .ok { st with bs := st.bs ++ [⟨lcl, rmt⟩] }
    | _ => .ok st

/-- Dispatch on one tokenized instruction line (gen2.go lines 612-692). -/
def processFields (inspect : String → ImageInspect) (buildPath : String) (st : BSState) :
    List String → Except Unit BSState
  | [] => .ok st
  | p0 :: rest =>
    let cmd := goToUpper p0
    if cmd = "ADD" || cmd = "COPY" then processAddCopy buildPath st (p0 :: rest)
    else if cmd = "ENV" then
      match rest with
      | k :: v :: _ => .ok { st with env := envSet st.env k v }
      | _ => .ok st
    else if cmd = "FROM" then
      match rest with
      | img :: _ => processFrom inspect st img
      | _ => .ok st
    else if cmd = "WORKDIR" then
      match rest with
      | d :: _ => .ok { st with wd := replaceEnv d st.env }
      | _ => .ok st
    else .ok st

/-- The scanner loop over the instruction file's lines. -/
def processLines (inspect : String → ImageInspect) (buildPath : String) :
    BSState → List String → Except Unit BSState
  | st, [] => .ok st
  | st, l :: ls =>
    match processFields inspect buildPath st (goFields l) with
    | .error e => .error e
    | .ok st2 => processLines inspect buildPath st2 ls

/-! ### waitForBuild (gen2.go lines 430-455)

The loop selects between the cancellation signal and a 1-second tick; on
a tick it polls the build and dispatches on its status.  The observed
schedule is a list of events: a cancellation, or a tick whose poll
returns either a provider error or a status string.  The result records
how many polls (BuildGet calls) were made and the outcome (`none` for a
nil error); the whole result is `none` when the event list is exhausted
with the loop still polling. -/

inductive PollEvent
  | cancel
  | tick (res : Except String String)
deriving Repr

inductive WaitErr
  | provider (e : String)              -- BuildGet returned an error
  | buildFailed                        -- status "failed"
  | unknownStatus (s : String)         -- any other terminal status
deriving DecidableEq, Repr

/-- The polling loop of `waitForBuild`. -/
def waitForBuild : List PollEvent → Option (Nat × Option WaitErr)
  | [] => none
  | .cancel :: _ => some (0, none)
  | .tick (.error e) :: _ => some (1, some (.provider e))
  | .tick (.ok s) :: rest =>
    if s = "created" || s = "running" then
      (waitForBuild rest).map (fun p => (p.1 + 1, p.2))
    else if s = "complete" then some (1, none)
    else if s = "failed" then some (1, some .buildFailed)
    else some (1, some (.unknownStatus s))

/-! ### Start2 control flow (gen2.go lines 58-194)

Each provider/filesystem step is an oracle field holding that call's
outcome; the goroutines Start2 launches (log streaming, error
aggregation, watchers) do not affect its return value and are not part
of this model.  The `<-ctx.Done()` at line 173 always completes (the
function only proceeds past it when the session is cancelled). -/

structure GoApp where
  Generation : String
  Release : String
deriving DecidableEq, Repr

inductive Start2Err
  | appRequired
  | appCreateFailed
  | invalidGeneration (g : String)
  | manifestRead
  | appEnv
  | manifestLoad
  | manifestValidate
  | buildCreateFailed
  | promoteFailed
  | getwdFailed
  | waitForRunning
  | demoteFailed
deriving DecidableEq, Repr

structure Start2World where
  canceledAtEntry : Bool                -- lines 59-63
  app : String                          -- opts.App
  appGet : Except Unit GoApp            -- line 69
  appCreate : Except Unit Unit          -- line 71
  manifestData : Except Unit Unit       -- line 80 (os.ReadFile)
  appEnv : Except Unit Unit             -- line 85
  manifestLoad : Except Unit Unit       -- line 90
  manifestValidate : Except Unit Unit   -- line 95
  buildFlag : Bool                      -- opts.Build
  buildCreate : Except Unit Unit        -- line 123 (whole buildCreate helper)
  canceledAfterBuild : Bool             -- lines 128-132
  promote : Except Unit Unit            -- line 142
  getwd : Except Unit Unit              -- line 154
  waitForRunning : Except Unit Unit     -- line 169
  teardownAppGet : Except Unit GoApp    -- line 175 (an error returns nil!)
  demote : Except Unit Unit             -- line 188

/-- Start2 from the manifest read onward (after the app checks). -/
def start2After (w : Start2World) : Option Start2Err :=
  match w.manifestData with
  | .error _ => some .manifestRead
  | .ok _ =>
  match w.appEnv with
  | .error _ => some .appEnv
  | .ok _ =>
  match w.manifestLoad with
  | .error _ => some .manifestLoad
  | .ok _ =>
  match w.manifestValidate with
  | .error _ => some .manifestValidate
  | .ok _ =>
  let afterBuild :=
    fun (_ : Unit) =>
      match w.getwd with
      | .error _ => some Start2Err.getwdFailed
      | .ok _ =>
      match w.waitForRunning with
      | .error _ => some Start2Err.waitForRunning
      | .ok _ =>
      match w.teardownAppGet with
      | .error _ => none
      | .ok a =>
        if a.Release ≠ "" then
          match w.demote with
          | .error _ => some Start2Err.demoteFailed
          | .ok _ => none
        else none
  if w.buildFlag then
    match w.buildCreate with
    | .error _ => some .buildCreateFailed
    | .ok _ =>
      if w.canceledAfterBuild then none
      else
        match w.promote with
        | .error _ => some .promoteFailed
        | .ok _ => afterBuild ()
  else afterBuild ()

/-- Return value of Start2 (`none` models a nil error). -/
def Start2 (w : Start2World) : Option Start2Err :=
  if w.canceledAtEntry then none
  else if w.app = "" then some .appRequired
  else
    match w.appGet with
    | .error _ =>
      (match w.appCreate with
       | .error _ => some .appCreateFailed
       | .ok _ => start2After w)
    | .ok a =>
      if a.Generation ≠ "2" && a.Generation ≠ "3" then some (.invalidGeneration a.Generation)
      else start2After w

/-! ### One flushed batch of the watch loop (gen2.go lines 511-553)

On a tick with a non-empty batch the loop lists the service's processes
(an error prints a sync-error line and continues), and then for each
process prints the threshold-based progress messages and dispatches
handleAdds/handleRemoves, printing any error through the prefix writer.
Each `pw.Writef` call site is one constructor of `TickMsg`; `TickEvent`
distinguishes writes to the prefix writer from sends on the shared error
channel `ch` (which the tick branch never performs — `ch` is only used
for setup errors in watchChanges/watchPath).  The Bool result records
that the loop proceeds to the next batch.  The handleAdds/handleRemoves
outcomes per process id are oracles, as are the listed processes. -/

structure GoChange where
  Base : String
  Path : String
deriving DecidableEq, Repr

inductive TickMsg
  | listError (e : String)                 -- line 518
  | addSummary (n : Nat) (dir svc : String)    -- line 527
  | addFile (path dir svc : String)        -- line 530
  | addError (e : String)                  -- line 535
  | removeSummary (n : Nat) (dir svc : String) -- line 540
  | removeFile (path dir svc : String)     -- line 543
  | removeError (e : String)               -- line 548
deriving DecidableEq, Repr

inductive TickEvent
  | console (m : TickMsg)                  -- pw.Writef("convox", ...)
  | errch (e : String)                     -- ch <- err
deriving DecidableEq, Repr

/-- `common.CoalesceString(s, ".")`: the first non-empty string. -/
def coalesceDot (s : String) : String := if s = "" then "." else s

/-- Messages and dispatch for one process (the body of the
`for _, ps := range pss` loop, gen2.go lines 524-550). -/
def syncOne (addsErr removesErr : String → Option String) (remote svc pid : String)
    (adds removes : List GoChange) : List TickMsg :=
  (if 3 < adds.length then [.addSummary adds.length (coalesceDot remote) svc]
   else if 0 < adds.length then adds.map (fun a => .addFile a.Path (coalesceDot remote) svc)
   else [])
  ++ (match addsErr pid with
      | some e => [.addError e]
      | none => [])
  ++ (if 3 < removes.length then [.removeSummary removes.length (coalesceDot remote) svc]
      else if 0 < removes.length then
        removes.map (fun r => .removeFile r.Path (coalesceDot remote) svc)
      else [])
  ++ (match removesErr pid with
      | some e => [.removeError e]
      | none => [])

/-- One non-empty flushed batch (the `case <-tick` branch): the events
in order, and whether the loop continues to the next batch. -/
def processTick (listProcs : Except String (List String))
    (addsErr removesErr : String → Option String) (remote svc : String)
    (adds removes : List GoChange) : List TickEvent × Bool :=
  match listProcs with
  | .error e => ([.console (.listError e)], true)
  | .ok pss =>
    (pss.flatMap (fun pid => (syncOne addsErr removesErr remote svc pid adds removes).map .console),
     true)

/-- The error-aggregation loop body (gen2.go lines 758-769): one value
received from the error channel becomes one tagged console line when
non-nil. -/
def handleErrors1 (e : Option String) : List (String × String) :=
  match e with
  | some err => [("convox", "<error>error: " ++ err ++ "</error>\n")]
  | none => []

/-- Recognize an error-channel event. -/
def isErrchEv : TickEvent → Bool
  | .errch _ => true
  | .console _ => false

/-! ### handleAdds (gen2.go lines 323-394)

When the remote base is relative, it is joined under the trimmed `pwd`
of the target process (an exec failure aborts with a `"<pid> pwd: "`
prefixed error).  The adds are then streamed as tar entries into the
upload pipe: a vanished source (stat reports not-exist) is silently
skipped; any other stat failure, or an open/copy failure, aborts the
whole batch; the final result is the concurrent upload's outcome.  The
filesystem and provider are oracles; the produced value is the list of
complete tar entries written to the archive (on an error the stream is
abandoned mid-write). -/

inductive StatResult
  | notExist                              -- os.IsNotExist(err)
  | statErr (e : String)                  -- any other stat error
  | statOk (mode : Nat) (size : Int) (modTime : Nat)
deriving DecidableEq, Repr

inductive OpenCopyResult
  | openFail (e : String)                 -- os.Open failed
  | copyFail (e : String)                 -- io.Copy failed
  | copied (data : List Nat)              -- the file's bytes
deriving DecidableEq, Repr

structure TarEntry where
  name : String
  mode : Nat
  size : Int
  modTime : Nat
  data : List Nat
deriving DecidableEq, Repr

/-- `filepath.Join(add.Base, add.Path)` (gen2.go line 352). -/
def localPath (a : GoChange) : String := goJoin2 a.Base a.Path

/-- The archive loop (gen2.go lines 351-383). -/
def archiveAdds (fsStat : String → StatResult) (fsOpen : String → OpenCopyResult)
    (remote : String) : List GoChange → Except String (List TarEntry)
  | [] => .ok []
  | a :: rest =>
    match fsStat (localPath a) with
    | .notExist => archiveAdds fsStat fsOpen remote rest
    | .statErr e => .error e
    | .statOk mode size mtime =>
      match fsOpen (localPath a) with
      | .openFail e => .error e
      | .copyFail e => .error e
      | .copied data =>
        match archiveAdds fsStat fsOpen remote rest with
        | .error e => .error e
        | .ok entries =>
          .ok ({ name := goJoin2 remote a.Path, mode := mode, size := size,
                 modTime := mtime, data := data } :: entries)

/-- handleAdds: `pwdRes` is the `ProcessExec(.., "pwd", ..)` outcome,
`uploadRes` the FilesUpload goroutine's result (`none` = nil). -/
def handleAdds (pwdRes : Except String String) (fsStat : String → StatResult)
    (fsOpen : String → OpenCopyResult) (uploadRes : Option String)
    (pid remote : String) (adds : List GoChange) : Except String (List TarEntry) :=
  if adds.length = 0 then .ok []
  else
    match
      (if goIsAbs remote then Except.ok remote
       else
         match pwdRes with
         | .error e => .error (pid ++ " pwd: " ++ e)
         | .ok out => .ok (goJoin2 (goTrimSpace out) remote)) with
    | .error e => .error e
    | .ok remote2 =>
      match archiveAdds fsStat fsOpen remote2 adds with
      | .error e => .error e
      | .ok entries =>
        match uploadRes with
        | some e => .error e
        | none => .ok entries

/-! ### writeLogs (gen2.go lines 780-834)

`reAppLog` (line 37) is
`^(\d-{4}-..)T(..)Z ([^/]+)/([^/]+)/([^ ]+) (.*)$` — a date, `T`, a
time, `Z `, three separated segments and the message.  For this anchored
pattern Go's leftmost-first matching is deterministic: each `[^x]+`
class is the maximal run up to the next occurrence of its terminator,
so the parse below is an exact model; only `(.*)` excludes a newline.
`parseAppLog` returns the six capture groups or `none` (Go checks
`len(match) != 7`).  A matched line of kind `service` is dropped unless
its origin-name is watched, and its message has the ANSI
cursor-positioning sequences (`ESC [ d+ ; d+ H`, line 781) stripped; a
`system` line routes by the instance segment up to the first `-`,
unstripped; any other kind is dropped.  `writeLogLine` returns the
routing key and the message written through the prefix writer
(`pw.Writef(key, "%s\n", msg)`), or `none` when the line produces no
output. -/

structure LogMatch where
  date : String
  time : String
  kind : String
  name : String
  inst : String
  msg : String
deriving DecidableEq, Repr

/-- Take exactly `n` digits. -/
def parseDigits : Nat → List Char → Option (List Char × List Char)
  | 0, cs => some ([], cs)
  | _ + 1, [] => none
  | n + 1, c :: cs =>
    if isDigitCh c then (parseDigits n cs).map (fun p => (c :: p.1, p.2)) else none

/-- Expect one literal character. -/
def expectCh (c : Char) : List Char → Option (List Char)
  | [] => none
  | x :: xs => if x = c then some xs else none

/-- The `\d{2}:\d{2}:\d{2}` time group. -/
def parseTimeGroup (cs : List Char) : Option (List Char × List Char) := do
  let (h, cs) ← parseDigits 2 cs
  let cs ← expectCh ':' cs
  let (m, cs) ← parseDigits 2 cs
  let cs ← expectCh ':' cs
  let (s, cs) ← parseDigits 2 cs
  some (h ++ ':' :: m ++ ':' :: s, cs)

/-- The `\d{4}-\d{2}-\d{2}` date group. -/
def parseDateGroup (cs : List Char) : Option (List Char × List Char) := do
  let (y, cs) ← parseDigits 4 cs
  let cs ← expectCh '-' cs
  let (m, cs) ← parseDigits 2 cs
  let cs ← expectCh '-' cs
  let (d, cs) ← parseDigits 2 cs
  some (y ++ '-' :: m ++ '-' :: d, cs)

/-- Model of `reAppLog.FindStringSubmatch` on one scanner line: the six
capture groups, or `none` when the pattern does not match. -/
def parseAppLog (line : String) : Option LogMatch := do
  let cs := line.data
  let (date, cs) ← parseDateGroup cs
  let cs ← expectCh 'T' cs
  let (time, cs) ← parseTimeGroup cs
  let cs ← expectCh 'Z' cs
  let cs ← expectCh ' ' cs
  let (kind, cs) ← takeUntilCh '/' cs      -- ([^/]+)/
  if kind = [] then none
  else do
    let (name, cs) ← takeUntilCh '/' cs    -- ([^/]+)/
    if name = [] then none
    else do
      let (inst, cs) ← takeUntilCh ' ' cs  -- ([^ ]+) then the literal space
      if inst = [] then none
      else if cs.contains '\n' then none   -- (.*) does not match a newline
      else
        some { date := String.mk date, time := String.mk time, kind := String.mk kind,
               name := String.mk name, inst := String.mk inst, msg := String.mk cs }

/-- Match the tail of `ESC [ \d+ ; \d+ H` after the ESC, returning the
remainder after `H`. -/
def matchCursorTail (cs : List Char) : Option (List Char) :=
  match cs with
  | '[' :: rest =>
    match rest.takeWhile isDigitCh, rest.dropWhile isDigitCh with
    | [], _ => none
    | _ :: _, ';' :: rest2 =>
      match rest2.takeWhile isDigitCh, rest2.dropWhile isDigitCh with
      | [], _ => none
      | _ :: _, 'H' :: rest3 => some rest3
      | _, _ => none
    | _, _ => none
  | _ => none

/-- Fuel-driven scan replacing every cursor-positioning sequence by
nothing (the fuel is the string length; every step consumes a char). -/
def stripAnsiFuel : Nat → List Char → List Char
  | 0, s => s
  | _ + 1, [] => []
  | fuel + 1, c :: cs =>
    if c = '\x1b' then
      match matchCursorTail cs with
      | some rest => stripAnsiFuel fuel rest
      | none => c :: stripAnsiFuel fuel cs
    else c :: stripAnsiFuel fuel cs

/-- Model of gen2.go's `stripANSIScreenCommands` (lines 784-790). -/
def stripANSIScreenCommands (s : String) : String :=
  String.mk (stripAnsiFuel s.data.length s.data)

/-- Routing decision of the writeLogs loop body for one line (gen2.go
lines 802-827): the `(key, message)` written, or `none`. -/
def writeLogLine (services : List String) (line : String) : Option (String × String) :=
  match parseAppLog line with
  | none => none
  | some m =>
    if m.kind = "service" then
      if services.contains m.name then some (m.name, stripANSIScreenCommands m.msg)
      else none
    else if m.kind = "system" then
      let svc := String.mk (takeUntilMinus m.inst.data)
      if services.contains svc then some (svc, m.msg) else none
    else none

/-! ### Counting predicates over tick events, and concrete scenarios -/

/-- Lift a message predicate to events (error-channel events never match). -/
def isConsoleP (p : TickMsg → Bool) : TickEvent → Bool
  | .console m => p m
  | .errch _ => false

/-- Number of console lines satisfying `p` among the events. -/
def countMsg (p : TickMsg → Bool) (evs : List TickEvent) : Nat :=
  evs.countP (isConsoleP p)

def isAddSummaryMsg : TickMsg → Bool
  | .addSummary _ _ _ => true
  | _ => false

def isAddFileMsg : TickMsg → Bool
  | .addFile _ _ _ => true
  | _ => false

def isRemoveSummaryMsg : TickMsg → Bool
  | .removeSummary _ _ _ => true
  | _ => false

def isRemoveFileMsg : TickMsg → Bool
  | .removeFile _ _ _ => true
  | _ => false

/-- Inspect oracle for the ENV-then-FROM scenario: image `img` has
configured environment `PORT=2` and working directory `/w`. -/
def inspectC3 : String → ImageInspect := fun img =>
  if img = "img" then ⟨some (.ok ["PORT=2"]), .ok "/w"⟩ else ⟨none, .error ()⟩

/-- A session cancelled before Start2 does anything. -/
def devWorldEntryCancel : Start2World :=
  { canceledAtEntry := true, app := "web", appGet := .ok ⟨"2", "R1"⟩, appCreate := .ok ()
  , manifestData := .ok (), appEnv := .ok (), manifestLoad := .ok (), manifestValidate := .ok ()
  , buildFlag := false, buildCreate := .ok (), canceledAfterBuild := false, promote := .ok ()
  , getwd := .ok (), waitForRunning := .ok (), teardownAppGet := .ok ⟨"2", "R1"⟩
  , demote := .ok () }

/-- A session cancelled between build completion and promotion. -/
def devWorldBuildCancel : Start2World :=
  { canceledAtEntry := false, app := "web", appGet := .ok ⟨"2", "R1"⟩, appCreate := .ok ()
  , manifestData := .ok (), appEnv := .ok (), manifestLoad := .ok (), manifestValidate := .ok ()
  , buildFlag := true, buildCreate := .ok (), canceledAfterBuild := true, promote := .error ()
  , getwd := .ok (), waitForRunning := .ok (), teardownAppGet := .ok ⟨"2", "R1"⟩
  , demote := .ok () }

/-! ## Theorems for the claims -/

/-- Claim C2: waitForBuild returns nil after exactly 3 polls on
created, running, complete; a build-failure error right after the poll
observing failed on running, failed; an unknown-status error on
running, bogus; and the statuses created and running never terminate
the loop (they add one poll and defer to the rest of the schedule). -/
theorem C2_waitForBuild_terminal_states :
    waitForBuild [.tick (.ok "created"), .tick (.ok "running"), .tick (.ok "complete")]
        = some (3, none)
    ∧ waitForBuild [.tick (.ok "running"), .tick (.ok "failed")]
        = some (2, some .buildFailed)
    ∧ waitForBuild [.tick (.ok "running"), .tick (.ok "bogus")]
        = some (2, some (.unknownStatus "bogus"))
    ∧ (∀ rest, waitForBuild (.tick (.ok "created") :: rest)
        = (waitForBuild rest).map (fun p => (p.1 + 1, p.2)))
    ∧ (∀ rest, waitForBuild (.tick (.ok "running") :: rest)
        = (waitForBuild rest).map (fun p => (p.1 + 1, p.2))) :=
  ⟨rfl, rfl, rfl, fun _ => rfl, fun _ => rfl⟩

/-- Claim C9: substituting PORT=8080 into the destination
`/$\x7bPORT\x7d/app` yields `/8080/app`, and re-substituting the result,
which has no remaining variable tokens, is a no-op. -/
theorem C9_replaceEnv_idempotent :
    replaceEnv "/$\x7bPORT\x7d/app" [("PORT", "8080")] = "/8080/app"
    ∧ replaceEnv "/8080/app" [("PORT", "8080")] = "/8080/app" :=
  ⟨rfl, rfl⟩

/-- Claim C5: a line that does not match the structured pattern produces
no output; a service-kind line whose origin-name is outside the interest
set produces no output; and the concrete ANSI-bearing line for `web`
routes to key `web` with the cursor sequence stripped. -/
theorem C5_writeLogs_filtering :
    (∀ (services : List String) (line : String),
      parseAppLog line = none → writeLogLine services line = none)
    ∧ (∀ (services : List String) (line : String) (m : LogMatch),
      parseAppLog line = some m → m.kind = "service" →
      services.contains m.name = false → writeLogLine services line = none)
    ∧ writeLogLine ["web"] "2024-01-01T00:00:00Z service/web/i-123 Hello\x1b[1;1HWorld"
        = some ("web", "HelloWorld") := by
  refine ⟨?_, ?_, ?_⟩
  · intro services line h
    simp [writeLogLine, h]
  · intro services line m hm hk hc
    simp [writeLogLine, hm, hk, hc]
    simpa using hc
  · rfl

/-- Witness for C5 at concrete lines: a non-matching line, a matching
line for an unwatched service, and the ANSI-stripping example. -/
theorem C5_witness :
    writeLogLine ["web"] "garbage" = none
    ∧ writeLogLine ["web"] "2024-01-01T00:00:00Z service/api/i-9 hi" = none
    ∧ writeLogLine ["web"] "2024-01-01T00:00:00Z service/web/i-123 Hello\x1b[1;1HWorld"
        = some ("web", "HelloWorld") :=
  ⟨C5_writeLogs_filtering.1 ["web"] "garbage" rfl,
   C5_writeLogs_filtering.2.1 ["web"] "2024-01-01T00:00:00Z service/api/i-9 hi"
     ⟨"2024-01-01", "00:00:00", "service", "api", "i-9", "hi"⟩ rfl rfl rfl,
   C5_writeLogs_filtering.2.2⟩

/-- Claim C10: a line matching the structured pattern whose origin-kind
is neither `service` nor `system` produces no output, for every
interest set. -/
theorem C10_unknown_kind_dropped :
    ∀ (services : List String) (line : String) (m : LogMatch),
      parseAppLog line = some m → m.kind ≠ "service" → m.kind ≠ "system" →
      writeLogLine services line = none := by
  intro services line m hm h1 h2
  simp [writeLogLine, hm, h1, h2]

/-- Witness for C10: a matched line of kind `foo` is dropped. -/
theorem C10_witness :
    writeLogLine ["web"] "2024-01-01T00:00:00Z foo/web/i-1 hi" = none :=
  C10_unknown_kind_dropped ["web"] "2024-01-01T00:00:00Z foo/web/i-1 hi"
    ⟨"2024-01-01", "00:00:00", "foo", "web", "i-1", "hi"⟩ rfl (by decide) (by decide)

/-- Claim C7: cancellation is never surfaced as an error — if the
cancellation signal fires while waitForBuild waits between polls (after
any number of non-terminal polls), waitForBuild returns nil; and Start2
returns nil when it observes cancellation at entry, or between build
completion and promotion having reached that point. -/
theorem C7_cancellation_not_error :
    (∀ (pre : List String) (rest : List PollEvent),
      (∀ s ∈ pre, s = "created" ∨ s = "running") →
      waitForBuild (pre.map (fun s => PollEvent.tick (Except.ok s)) ++ PollEvent.cancel :: rest)
        = some (pre.length, none))
    ∧ (∀ w : Start2World, w.canceledAtEntry = true → Start2 w = none)
    ∧ (∀ w : Start2World, w.canceledAtEntry = false → w.app ≠ "" →
        ((∃ a, w.appGet = .ok a ∧ (a.Generation = "2" ∨ a.Generation = "3"))
          ∨ (w.appGet = .error () ∧ w.appCreate = .ok ())) →
        w.manifestData = .ok () → w.appEnv = .ok () → w.manifestLoad = .ok () →
        w.manifestValidate = .ok () → w.buildFlag = true → w.buildCreate = .ok () →
        w.canceledAfterBuild = true → Start2 w = none) := by
  refine ⟨?_, ?_, ?_⟩
  · intro pre
    induction pre with
    | nil => intro rest _; rfl
    | cons s ss ih =>
      intro rest hall
      have hs := hall s (List.mem_cons_self s ss)
      have hrest := ih rest (fun x hx => hall x (List.mem_cons_of_mem s hx))
      rcases hs with h | h <;> subst h <;>
        simp [waitForBuild, hrest, List.length_cons]
  · intro w h
    simp [Start2, h]
  · intro w h0 h1 h2 h3 h4 h5 h6 h7 h8 h9
    have hAfter : start2After w = none := by
      simp [start2After, h3, h4, h5, h6, h7, h8, h9]
    rcases h2 with ⟨a, ha, hgen⟩ | ⟨ha, hc⟩
    · rcases hgen with hg | hg <;> simp [Start2, h0, h1, ha, hg, hAfter]
    · simp [Start2, h0, h1, ha, hc, hAfter]

/-- Witness for C7: one non-terminal poll then cancellation returns nil,
and the two concrete cancelled sessions return nil. -/
theorem C7_witness :
    waitForBuild [PollEvent.tick (Except.ok "created"), PollEvent.cancel] = some (1, none)
    ∧ Start2 devWorldEntryCancel = none
    ∧ Start2 devWorldBuildCancel = none :=
  ⟨C7_cancellation_not_error.1 ["created"] [] (by decide),
   C7_cancellation_not_error.2.1 devWorldEntryCancel rfl,
   C7_cancellation_not_error.2.2 devWorldBuildCancel rfl (by decide)
     (Or.inl ⟨⟨"2", "R1"⟩, rfl, Or.inl rfl⟩) rfl rfl rfl rfl rfl rfl rfl⟩

/-- Claim C8: in handleAdds a source whose stat reports not-exist is
silently skipped (the archive of the batch is exactly the archive
without it: no error, no tar entry), while any other stat failure, or an
open/copy failure, aborts the whole batch with an error, which handleAdds
returns. -/
theorem C8_handleAdds_vanished_skipped :
    (∀ fsStat fsOpen remote (a : GoChange) rest,
      fsStat (localPath a) = StatResult.notExist →
      archiveAdds fsStat fsOpen remote (a :: rest) = archiveAdds fsStat fsOpen remote rest)
    ∧ (∀ fsStat fsOpen remote (a : GoChange) rest e,
      fsStat (localPath a) = StatResult.statErr e →
      archiveAdds fsStat fsOpen remote (a :: rest) = .error e)
    ∧ (∀ fsStat fsOpen remote (a : GoChange) rest e mode size mtime,
      fsStat (localPath a) = StatResult.statOk mode size mtime →
      fsOpen (localPath a) = OpenCopyResult.openFail e →
      archiveAdds fsStat fsOpen remote (a :: rest) = .error e)
    ∧ (∀ fsStat fsOpen remote (a : GoChange) rest e mode size mtime,
      fsStat (localPath a) = StatResult.statOk mode size mtime →
      fsOpen (localPath a) = OpenCopyResult.copyFail e →
      archiveAdds fsStat fsOpen remote (a :: rest) = .error e)
    ∧ (∀ pwdRes fsStat fsOpen uploadRes pid remote (adds : List GoChange) e,
      goIsAbs remote = true → archiveAdds fsStat fsOpen remote adds = .error e →
      handleAdds pwdRes fsStat fsOpen uploadRes pid remote adds = .error e) := by
  refine ⟨?_, ?_, ?_, ?_, ?_⟩
  · intro fsStat fsOpen remote a rest h
    simp [archiveAdds, h]
  · intro fsStat fsOpen remote a rest e h
    simp [archiveAdds, h]
  · intro fsStat fsOpen remote a rest e mode size mtime h1 h2
    simp [archiveAdds, h1, h2]
  · intro fsStat fsOpen remote a rest e mode size mtime h1 h2
    simp [archiveAdds, h1, h2]
  · intro pwdRes fsStat fsOpen uploadRes pid remote adds e habs harch
    cases adds with
    | nil => rw [archiveAdds] at harch; cases harch
    | cons a rest => simp [handleAdds, habs, harch]

/-- Witness for C8 at concrete oracles: a vanished file contributes
nothing, each failure kind aborts, and handleAdds surfaces the error. -/
theorem C8_witness :
    archiveAdds (fun _ => StatResult.notExist) (fun _ => OpenCopyResult.copied []) "/r"
        [⟨"/b", "x"⟩]
      = archiveAdds (fun _ => StatResult.notExist) (fun _ => OpenCopyResult.copied []) "/r" []
    ∧ archiveAdds (fun _ => StatResult.statErr "disk") (fun _ => OpenCopyResult.copied []) "/r"
        [⟨"/b", "x"⟩] = .error "disk"
    ∧ archiveAdds (fun _ => StatResult.statOk 420 7 9) (fun _ => OpenCopyResult.openFail "op")
        "/r" [⟨"/b", "x"⟩] = .error "op"
    ∧ archiveAdds (fun _ => StatResult.statOk 420 7 9) (fun _ => OpenCopyResult.copyFail "cp")
        "/r" [⟨"/b", "x"⟩] = .error "cp"
    ∧ handleAdds (.ok "/w") (fun _ => StatResult.statErr "disk")
        (fun _ => OpenCopyResult.copied []) none "p1" "/r" [⟨"/b", "x"⟩] = .error "disk" :=
  ⟨C8_handleAdds_vanished_skipped.1 (fun _ => StatResult.notExist)
      (fun _ => OpenCopyResult.copied []) "/r" ⟨"/b", "x"⟩ [] rfl,
   C8_handleAdds_vanished_skipped.2.1 (fun _ => StatResult.statErr "disk")
      (fun _ => OpenCopyResult.copied []) "/r" ⟨"/b", "x"⟩ [] "disk" rfl,
   C8_handleAdds_vanished_skipped.2.2.1 (fun _ => StatResult.statOk 420 7 9)
      (fun _ => OpenCopyResult.openFail "op") "/r" ⟨"/b", "x"⟩ [] "op" 420 7 9 rfl rfl,
   C8_handleAdds_vanished_skipped.2.2.2.1 (fun _ => StatResult.statOk 420 7 9)
      (fun _ => OpenCopyResult.copyFail "cp") "/r" ⟨"/b", "x"⟩ [] "cp" 420 7 9 rfl rfl,
   C8_handleAdds_vanished_skipped.2.2.2.2 (.ok "/w") (fun _ => StatResult.statErr "disk")
      (fun _ => OpenCopyResult.copied []) none "p1" "/r" [⟨"/b", "x"⟩] "disk" rfl rfl⟩

/-- If some member of the scanned suffix contains `a` (prefix plus equal
remotes or equal relative offsets), a successful inner scan reports
containment. -/
theorem checkContained_true_of_mem {a b : buildSource} {l : List buildSource} {c : Bool}
    (hb : b ∈ l) (hpre : strStartsWith a.Local b.Local = true)
    (hrel : a.Remote = b.Remote ∨ goRel b.Local a.Local = goRel b.Remote a.Remote)
    (hc : checkContained a l = .ok c) : c = true := by
  induction l with
  | nil => cases hb
  | cons x xs ih =>
    rcases List.mem_cons.mp hb with hbx | hbxs
    · subst hbx
      rw [checkContained, if_pos hpre] at hc
      by_cases hrem : a.Remote = b.Remote
      · rw [if_pos hrem] at hc
        cases hc
        rfl
      · rw [if_neg hrem] at hc
        rcases hrel with h | h
        · exact absurd h hrem
        · cases hl : goRel b.Local a.Local with
          | none =>
            rw [hl] at h
            rw [hl, ← h] at hc
            cases hc
          | some r =>
            rw [hl] at h
            rw [hl, ← h] at hc
            simp at hc
            exact hc
    · by_cases hx : strStartsWith a.Local x.Local = true
      · rw [checkContained, if_pos hx] at hc
        by_cases hrx : a.Remote = x.Remote
        · rw [if_pos hrx] at hc
          cases hc
          rfl
        · rw [if_neg hrx] at hc
          cases hxl : goRel x.Local a.Local with
          | none =>
            rw [hxl] at hc
            cases hxr : goRel x.Remote a.Remote with
            | none => rw [hxr] at hc; cases hc
            | some rr => rw [hxr] at hc; cases hc
          | some rl =>
            rw [hxl] at hc
            cases hxr : goRel x.Remote a.Remote with
            | none => rw [hxr] at hc; cases hc
            | some rr =>
              rw [hxr] at hc
              by_cases hrr : rl = rr
              · simp [hrr] at hc
                exact hc
              · simp [hrr] at hc
                exact ih hbxs hc
      · rw [checkContained, if_neg hx] at hc
        exact ih hbxs hc

/-- Claim C1 (amended): if B's Local is a path-prefix of A's Local and
the Remote offsets match (or the Remotes are equal), then A is dropped
by the dedup scan *provided B appears after A* in the pre-dedup list —
the scan only compares each entry against later ones, so processing the
list with A at the front yields exactly the dedup of the rest. -/
theorem C1_dedup_drops_inner_when_outer_later :
    ∀ (a b : buildSource) (rest out : List buildSource),
      b ∈ rest → strStartsWith a.Local b.Local = true →
      (a.Remote = b.Remote ∨ goRel b.Local a.Local = goRel b.Remote a.Remote) →
      dedupSources (a :: rest) = .ok out → dedupSources rest = .ok out := by
  intro a b rest out hb hpre hrel h
  rw [dedupSources] at h
  cases hcc : checkContained a rest with
  | error e => rw [hcc] at h; cases h
  | ok c =>
    rw [hcc] at h
    have hct := checkContained_true_of_mem hb hpre hrel hcc
    subst hct
    cases hd : dedupSources rest with
    | error e => rw [hd] at h; cases h
    | ok tail =>
      rw [hd] at h
      simp at h
      simp [h]

/-- Counterexample to C1 as stated: with the containing entry `/a/ → /r`
*before* the contained entry `/a/b → /r/b`, both survive the dedup even
though the prefix is strict and the relative offsets agree — the claim's
"regardless of the relative order" fails. -/
theorem C1_counterexample :
    dedupSources [⟨"/a/", "/r"⟩, ⟨"/a/b", "/r/b"⟩]
      = .ok [⟨"/a/", "/r"⟩, ⟨"/a/b", "/r/b"⟩]
    ∧ strStartsWith "/a/b" "/a/" = true
    ∧ ("/a/" : String) ≠ "/a/b"
    ∧ goRel "/a/" "/a/b" = some "b"
    ∧ goRel "/r" "/r/b" = some "b"
    ∧ (⟨"/a/b", "/r/b"⟩ : buildSource)
        ∈ [(⟨"/a/", "/r"⟩ : buildSource), ⟨"/a/b", "/r/b"⟩] :=
  ⟨rfl, rfl, by decide, rfl, rfl, by decide⟩

/-- Witness for C1: with the containing entry after the contained one,
the contained entry is dropped and the result is the dedup of the rest. -/
theorem C1_witness :
    dedupSources [(⟨"/a/b", "/r/b"⟩ : buildSource), ⟨"/a/", "/r"⟩] = .ok [⟨"/a/", "/r"⟩]
    ∧ dedupSources [(⟨"/a/", "/r"⟩ : buildSource)] = .ok [⟨"/a/", "/r"⟩] :=
  ⟨rfl,
   C1_dedup_drops_inner_when_outer_later ⟨"/a/b", "/r/b"⟩ ⟨"/a/", "/r"⟩
     [⟨"/a/", "/r"⟩] [⟨"/a/", "/r"⟩] (by decide) rfl (Or.inr rfl) rfl⟩

/-- Go map assignment then lookup: the assigned value is read back,
whatever binding was there before. -/
theorem envGet_envSet (env : List (String × String)) (k v : String) :
    envGet (envSet env k v) k = some v := by
  induction env with
  | nil => simp [envSet, envGet]
  | cons p env ih =>
    by_cases hp : (p.1 == k) = true
    · have hsome : (p :: env).any (fun kv => kv.1 == k) = true := by
        simp [List.any_cons, hp]
      simp only [envSet, if_pos hsome, List.map_cons, if_pos hp]
      simp [envGet]
    · have hpf : (p.1 == k) = false := by simpa using hp
      by_cases ha : env.any (fun kv => kv.1 == k) = true
      · have hsome : (p :: env).any (fun kv => kv.1 == k) = true := by
          simp [List.any_cons, ha]
        have ih2 := ih
        simp only [envSet, if_pos ha] at ih2
        simp only [envSet, if_pos hsome, List.map_cons, if_neg hp]
        simp only [envGet, hpf]
        exact ih2
      · have hnone : ¬((p :: env).any (fun kv => kv.1 == k) = true) := by
          simp only [List.any_cons, Bool.or_eq_true]
          rintro (h | h)
          · exact hp h
          · exact ha h
        have ih2 := ih
        simp only [envSet, if_neg ha] at ih2
        simp only [envSet, if_neg hnone, List.cons_append]
        simp only [envGet, hpf]
        exact ih2

/-- Claim C3 (amended): when the scan processes `FROM img` and both
inspections succeed, every `K=V` entry of the image's configured
environment is written into the running map by plain Go map assignment —
overwriting any binding already set by earlier ENV instructions — and
the working directory is set from the image's configured value
(whitespace-trimmed); the second conjunct isolates the overwrite:
after an assignment the key reads back the new value regardless of any
earlier binding. -/
theorem C3_from_env_merge_overwrites :
    (∀ (inspect : String → ImageInspect) (bp : String) (st : BSState) (img : String)
        (ee : List String) (wraw : String),
      inspect img = ⟨some (.ok ee), .ok wraw⟩ →
      processFields inspect bp st ["FROM", img]
        = .ok { st with env := ee.foldl envMergeEntry st.env, wd := goTrimSpace wraw })
    ∧ (∀ (env : List (String × String)) (k v : String),
      envGet (envSet env k v) k = some v) := by
  constructor
  · intro inspect bp st img ee wraw h
    have hgo : goToUpper "FROM" = "FROM" := rfl
    simp [processFields, processFrom, hgo, h]
  · exact envGet_envSet

/-- Counterexample to C3 as stated: an `ENV PORT 1` followed by a
`FROM img` whose image environment carries `PORT=2` leaves the running
map with `PORT = 2` — the base-image entry *did* overwrite the value
set by the earlier ENV instruction (the claim demands it be kept at 1). -/
theorem C3_counterexample :
    processLines inspectC3 "." ⟨[], [], ""⟩ ["ENV PORT 1", "FROM img"]
      = .ok ⟨[], [("PORT", "2")], "/w"⟩
    ∧ envGet [("PORT", "2")] "PORT" = some "2"
    ∧ some "2" ≠ some "1" :=
  ⟨rfl, rfl, by decide⟩

/-- Witness for C3 at the concrete inspect oracle: the FROM equation at
a state already binding PORT, and the overwrite lemma at that binding. -/
theorem C3_witness :
    processFields inspectC3 "." ⟨[], [("PORT", "1")], ""⟩ ["FROM", "img"]
      = .ok ⟨[], [("PORT", "2")], "/w"⟩
    ∧ envGet (envSet [("PORT", "1")] "PORT" "2") "PORT" = some "2" :=
  ⟨C3_from_env_merge_overwrites.1 inspectC3 "." ⟨[], [("PORT", "1")], ""⟩ "img"
      ["PORT=2"] "/w" rfl,
   C3_from_env_merge_overwrites.2 [("PORT", "1")] "PORT" "2"⟩

/-- Claim C4 (amended): the tick branch of the watch loop never sends on
the shared error channel — handleAdds/handleRemoves failures for each
process are written directly through the prefix writer as `sync add
error`/`sync remove error` console lines — and the loop always continues
to the next batch; the last conjunct records what the handleErrors drain
does with an error that *is* sent on the channel (only setup errors are). -/
theorem C4_sync_errors_bypass_error_channel :
    (∀ listProcs addsErr removesErr remote svc adds removes,
      (processTick listProcs addsErr removesErr remote svc adds removes).1.any isErrchEv
          = false
      ∧ (processTick listProcs addsErr removesErr remote svc adds removes).2 = true)
    ∧ (∀ (pss : List String) addsErr removesErr remote svc adds removes pid e,
      pid ∈ pss → addsErr pid = some e →
      TickEvent.console (.addError e)
        ∈ (processTick (.ok pss) addsErr removesErr remote svc adds removes).1)
    ∧ (∀ (pss : List String) addsErr removesErr remote svc adds removes pid e,
      pid ∈ pss → removesErr pid = some e →
      TickEvent.console (.removeError e)
        ∈ (processTick (.ok pss) addsErr removesErr remote svc adds removes).1)
    ∧ (∀ e, handleErrors1 (some e) = [("convox", "<error>error: " ++ e ++ "</error>\n")]) := by
  refine ⟨?_, ?_, ?_, fun e => rfl⟩
  · intro listProcs addsErr removesErr remote svc adds removes
    cases listProcs with
    | error e => exact ⟨rfl, rfl⟩
    | ok pss =>
      refine ⟨?_, rfl⟩
      simp only [processTick, List.any_eq_false]
      intro x hx
      rcases List.mem_flatMap.mp hx with ⟨pid, _, hx2⟩
      rcases List.mem_map.mp hx2 with ⟨m, _, rfl⟩
      exact Bool.false_ne_true
  · intro pss addsErr removesErr remote svc adds removes pid e hpid he
    simp only [processTick]
    refine List.mem_flatMap.mpr ⟨pid, hpid, ?_⟩
    refine List.mem_map.mpr ⟨.addError e, ?_, rfl⟩
    simp [syncOne, he]
  · intro pss addsErr removesErr remote svc adds removes pid e hpid he
    simp only [processTick]
    refine List.mem_flatMap.mpr ⟨pid, hpid, ?_⟩
    refine List.mem_map.mpr ⟨.removeError e, ?_, rfl⟩
    simp [syncOne, he]

/-- Counterexample to C4 as stated: a batch whose handleAdds fails with
`boom` prints the error to the console (prefix writer) and puts nothing
on the shared error channel; the loop continues. -/
theorem C4_counterexample :
    processTick (.ok ["p1"]) (fun _ => some "boom") (fun _ => none) "/r" "web"
        [⟨"/b", "f.txt"⟩] []
      = ([.console (.addFile "f.txt" "/r" "web"), .console (.addError "boom")], true)
    ∧ ([TickEvent.console (.addFile "f.txt" "/r" "web"),
        TickEvent.console (.addError "boom")].any isErrchEv) = false :=
  ⟨rfl, rfl⟩

/-- Witness for C4 at a concrete failing batch. -/
theorem C4_witness :
    (processTick (.ok ["p1"]) (fun _ => some "boom") (fun _ => some "gone") "/r" "web"
        [⟨"/b", "f.txt"⟩] []).1.any isErrchEv = false
    ∧ (processTick (.ok ["p1"]) (fun _ => some "boom") (fun _ => some "gone") "/r" "web"
        [⟨"/b", "f.txt"⟩] []).2 = true
    ∧ TickEvent.console (.addError "boom")
        ∈ (processTick (.ok ["p1"]) (fun _ => some "boom") (fun _ => some "gone") "/r" "web"
            [⟨"/b", "f.txt"⟩] []).1
    ∧ TickEvent.console (.removeError "gone")
        ∈ (processTick (.ok ["p1"]) (fun _ => some "boom") (fun _ => some "gone") "/r" "web"
            [⟨"/b", "f.txt"⟩] []).1
    ∧ handleErrors1 (some "boom") = [("convox", "<error>error: boom</error>\n")] :=
  ⟨(C4_sync_errors_bypass_error_channel.1 (.ok ["p1"]) (fun _ => some "boom")
      (fun _ => some "gone") "/r" "web" [⟨"/b", "f.txt"⟩] []).1,
   (C4_sync_errors_bypass_error_channel.1 (.ok ["p1"]) (fun _ => some "boom")
      (fun _ => some "gone") "/r" "web" [⟨"/b", "f.txt"⟩] []).2,
   C4_sync_errors_bypass_error_channel.2.1 ["p1"] (fun _ => some "boom")
      (fun _ => some "gone") "/r" "web" [⟨"/b", "f.txt"⟩] [] "p1" "boom"
      (List.mem_singleton.mpr rfl) rfl,
   C4_sync_errors_bypass_error_channel.2.2.1 ["p1"] (fun _ => some "boom")
      (fun _ => some "gone") "/r" "web" [⟨"/b", "f.txt"⟩] [] "p1" "gone"
      (List.mem_singleton.mpr rfl) rfl,
   C4_sync_errors_bypass_error_channel.2.2.2 "boom"⟩

/-- Console-line count of a mapped message list is the message count. -/
theorem countMsg_map_console (p : TickMsg → Bool) (msgs : List TickMsg) :
    countMsg p (msgs.map TickEvent.console) = msgs.countP p := by
  induction msgs with
  | nil => rfl
  | cons m msgs ih =>
    simp only [List.map_cons, countMsg, List.countP_cons] at ih ⊢
    rw [ih]
    rfl

/-- Per-process message counts of one dispatch of the tick loop. -/
theorem syncOne_countP (ae re : String → Option String) (remote svc pid : String)
    (adds removes : List GoChange) :
    ((syncOne ae re remote svc pid adds removes).countP isAddSummaryMsg
        = (if 3 < adds.length then 1 else 0))
    ∧ ((syncOne ae re remote svc pid adds removes).countP isAddFileMsg
        = (if 3 < adds.length then 0 else adds.length))
    ∧ ((syncOne ae re remote svc pid adds removes).countP isRemoveSummaryMsg
        = (if 3 < removes.length then 1 else 0))
    ∧ ((syncOne ae re remote svc pid adds removes).countP isRemoveFileMsg
        = (if 3 < removes.length then 0 else removes.length)) := by
  unfold syncOne
  rcases hae : ae pid with _ | e1 <;> rcases hre : re pid with _ | e2 <;>
    by_cases h3a : 3 < adds.length <;> by_cases h3r : 3 < removes.length <;>
      refine ⟨?_, ?_, ?_, ?_⟩ <;>
        by_cases h0a : 0 < adds.length <;> by_cases h0r : 0 < removes.length <;>
          simp [h3a, h3r, h0a, h0r, List.countP_cons, Function.comp_def, isAddSummaryMsg,
            isAddFileMsg, isRemoveSummaryMsg, isRemoveFileMsg] <;>
          omega

/-- The process loop multiplies a uniform per-process count by the
number of listed processes. -/
theorem countMsg_processTick (p : TickMsg → Bool) (ae re : String → Option String)
    (remote svc : String) (adds removes : List GoChange) (pss : List String) (k : Nat)
    (h : ∀ pid, (syncOne ae re remote svc pid adds removes).countP p = k) :
    countMsg p (processTick (.ok pss) ae re remote svc adds removes).1 = pss.length * k := by
  induction pss with
  | nil => simp [processTick, countMsg]
  | cons pid pss ih =>
    have hone : List.countP (isConsoleP p)
        ((syncOne ae re remote svc pid adds removes).map TickEvent.console) = k := by
      have hmc := countMsg_map_console p (syncOne ae re remote svc pid adds removes)
      simp only [countMsg] at hmc
      rw [hmc, h pid]
    simp only [processTick, List.flatMap_cons, countMsg, List.countP_append] at ih ⊢
    rw [hone, ih, List.length_cons, Nat.succ_mul]
    omega

/-- Claim C6 (amended): the threshold messages are emitted once per
listed process: with `n` live processes an adds list longer than 3
produces `n` summary lines (exactly one when one process is live) and no
per-file lines, an adds list of length 1–3 produces `n * length`
per-file lines and no summary; the same threshold governs the removes
messages; and the loop continues after the batch. -/
theorem C6_threshold_messages_per_process :
    ∀ (pss : List String) (ae re : String → Option String) (remote svc : String)
      (adds removes : List GoChange),
      countMsg isAddSummaryMsg (processTick (.ok pss) ae re remote svc adds removes).1
          = pss.length * (if 3 < adds.length then 1 else 0)
      ∧ countMsg isAddFileMsg (processTick (.ok pss) ae re remote svc adds removes).1
          = pss.length * (if 3 < adds.length then 0 else adds.length)
      ∧ countMsg isRemoveSummaryMsg (processTick (.ok pss) ae re remote svc adds removes).1
          = pss.length * (if 3 < removes.length then 1 else 0)
      ∧ countMsg isRemoveFileMsg (processTick (.ok pss) ae re remote svc adds removes).1
          = pss.length * (if 3 < removes.length then 0 else removes.length)
      ∧ (processTick (.ok pss) ae re remote svc adds removes).2 = true := by
  intro pss ae re remote svc adds removes
  refine ⟨?_, ?_, ?_, ?_, rfl⟩
  · exact countMsg_processTick _ ae re remote svc adds removes pss _
      (fun pid => (syncOne_countP ae re remote svc pid adds removes).1)
  · exact countMsg_processTick _ ae re remote svc adds removes pss _
      (fun pid => (syncOne_countP ae re remote svc pid adds removes).2.1)
  · exact countMsg_processTick _ ae re remote svc adds removes pss _
      (fun pid => (syncOne_countP ae re remote svc pid adds removes).2.2.1)
  · exact countMsg_processTick _ ae re remote svc adds removes pss _
      (fun pid => (syncOne_countP ae re remote svc pid adds removes).2.2.2)

/-- Counterexample to C6 as stated: with two live processes a flushed
adds batch of size 4 produces two summary lines, not exactly one. -/
theorem C6_counterexample :
    countMsg isAddSummaryMsg
      (processTick (.ok ["p1", "p2"]) (fun _ => none) (fun _ => none) "/r" "web"
        [⟨"/b", "a"⟩, ⟨"/b", "b"⟩, ⟨"/b", "c"⟩, ⟨"/b", "d"⟩] []).1 = 2
    ∧ (2 : Nat) ≠ 1 :=
  ⟨rfl, by decide⟩
